import Mathlib

/-!
Verification of the organization-resolution, caching, URL-normalization and
pagination logic of the snyk-auto-org tool, via a shallow embedding of the
Go source into Lean.

Go strings are modelled as `List Char`; the Go standard-library string
operations used by the source (`strings.HasPrefix`, `strings.HasSuffix`,
`strings.TrimPrefix`, `strings.TrimSuffix`, `strings.Split` with a
one-character separator) are re-implemented faithfully below.
-/

namespace SnykAutoOrg

/-- Go strings, modelled as lists of characters. -/
abbrev Str := List Char

/-- Shorthand turning a Lean string literal into the `Str` model. -/
def str (s : String) : Str := s.data

/-- `strings.HasPrefix s p` from Go. -/
def startsWith (s p : Str) : Bool := p.isPrefixOf s

/-- `strings.HasSuffix s suf` from Go. -/
def endsWith (s suf : Str) : Bool := suf.isSuffixOf s

/-- `strings.TrimPrefix s p` from Go: drops `p` from the front when present. -/
def trimStart (s p : Str) : Str :=
  if startsWith s p then s.drop p.length else s

/-- `strings.TrimSuffix s suf` from Go: drops one copy of `suf` from the end
when present. -/
def trimEnd (s suf : Str) : Str :=
  if endsWith s suf then s.take (s.length - suf.length) else s

/-- `strings.Split s sep` from Go, for a one-character separator (the source
only splits on `":"` and `"/"`). -/
def splitOnChar (c : Char) : Str → List Str
  | [] => [[]]
  | x :: xs =>
    match splitOnChar c xs with
    | [] => [[]]
    | y :: ys => if x = c then [] :: y :: ys else (x :: y) :: ys

/-- SQLite `LOWER`, which lowercases ASCII letters only. -/
def asciiLower (c : Char) : Char :=
  if 'A' ≤ c ∧ c ≤ 'Z' then Char.ofNat (c.toNat + 32) else c

/-- `LOWER(s)` applied to a whole string. -/
def sqlLower (s : Str) : Str := s.map asciiLower

/-- The straight-line rewriting part of `NormalizeRepoURL` from
`internal/cmd/git.go` (the successive reassignments of `url`): SSH-shorthand
conversion, `git://` and `http://` upgrades, `.git` stripping on `https://`
values, and trailing-slash trimming. -/
def normalizeCandidate (url0 : Str) : Str :=
  let u1 :=
    if startsWith url0 (str "git@") then
      let t := trimEnd url0 (str ".git")
      match splitOnChar ':' t with
      | [a, b] => str "https://" ++ trimStart a (str "git@") ++ str "/" ++ b
      | _ => t
    else url0
  let u2 :=
    if startsWith u1 (str "git://") then
      str "https://" ++ trimStart (trimEnd u1 (str ".git")) (str "git://")
    else u1
  let u3 :=
    if startsWith u2 (str "http://") then
      str "https://" ++ trimStart u2 (str "http://")
    else u2
  let u4 := if startsWith u3 (str "https://") then trimEnd u3 (str ".git") else u3
  trimEnd u4 (str "/")

/-- `NormalizeRepoURL` from `internal/cmd/git.go`: converts Git remote URL
formats to a standard HTTPS URL, or fails with an invalid-format error. -/
def normalizeRepoURL (url0 : Str) : Except Str Str :=
  if url0 = [] then .error (str "empty URL provided")
  else
    let u5 := normalizeCandidate url0
    if startsWith u5 (str "https://") = true ∧ 3 ≤ (splitOnChar '/' u5).length then
      .ok u5
    else .error (str "invalid repository URL format: " ++ u5)

/-- A Snyk organization as used by the tool (`internal/api`): id plus the
flattened attribute fields. -/
structure Organization where
  id : Str
  name : Str
  slug : Str
deriving DecidableEq, Repr

/-- A Snyk target (`internal/api`), with the `Attributes` struct flattened. -/
structure Target where
  id : Str
  displayName : Str
  url : Str
deriving DecidableEq, Repr

/-- `OrgTarget` from `internal/api`: an organization/target pair. -/
structure OrgTarget where
  orgID : Str
  orgName : Str
  targetURL : Str
  targetName : Str
deriving DecidableEq, Repr

/-- The HTTP/HTTPS variant pair built identically in `GetTargetsByURL`
(cache), `FindOrgWithTargetURL` (API client) and `findOrgByGitURL` (app):
first component is the `http://` variant, second the `https://` variant. -/
def urlVariants (u : Str) : Str × Str :=
  if startsWith u (str "https://") then
    (str "http://" ++ trimStart u (str "https://"), u)
  else if startsWith u (str "http://") then
    (u, str "https://" ++ trimStart u (str "http://"))
  else
    (str "http://" ++ u, str "https://" ++ u)

/-- Abstract view of the remote Snyk REST service as seen by a `SnykClient`:
the organization list and the per-organization target lists the API would
return (after pagination), or the errors those calls would surface. -/
structure ApiEnv where
  orgs : Except Str (List Organization)
  targets : Str → Except Str (List Target)

/-- The per-organization scan loop inside `FindOrgWithTargetURL`. -/
def findOrgScan (api : ApiEnv) (v1 v2 : Str) : List Organization → Except Str OrgTarget
  | [] => .error (str "no organization found with a target matching URL")
  | org :: rest =>
    match api.targets org.id with
    | .error _ => findOrgScan api v1 v2 rest
    | .ok ts =>
      match ts.find? (fun t => t.url = v1 ∨ t.url = v2) with
      | some t => .ok ⟨org.id, org.name, t.url, t.displayName⟩
      | none => findOrgScan api v1 v2 rest

/-- `SnykClient.FindOrgWithTargetURL` from `internal/api/snyk.go`: fetches all
organizations, builds the two scheme variants of the URL, and scans each
organization's targets for an exact (case-sensitive) match against either
variant; target-fetch errors skip the organization. -/
def findOrgWithTargetURL (api : ApiEnv) (targetURL : Str) : Except Str OrgTarget :=
  match api.orgs with
  | .error e => .error (str "failed to get organizations: " ++ e)
  | .ok orgs =>
    let v := urlVariants targetURL
    findOrgScan api v.1 v.2 orgs

/-- A wire-format organization record as decoded from a JSON page: `id` plus
the nested `attributes` fields (the mapping to flat `Organization` values
happens inside the pagination loop). -/
structure OrgRecord where
  id : Str
  attrName : Str
  attrSlug : Str
deriving DecidableEq, Repr

/-- One decoded response page of `GET /orgs`: the data records plus the
`links.next` value (empty string when absent). -/
structure Page where
  data : List OrgRecord
  next : Str
deriving DecidableEq, Repr

/-- `isAbsoluteURL` from `internal/api/snyk.go`, including its length guard:
`len(urlStr) > 8 && (urlStr[:7] == "http://" || urlStr[:8] == "https://")`. -/
def isAbsoluteURL (urlStr : Str) : Bool :=
  8 < urlStr.length &&
    (urlStr.take 7 = str "http://" || urlStr.take 8 = str "https://")

/-- The next-page URL computation inside `getAllOrganizationPages`: a
relative `next` link is resolved by prepending the configured base URL. -/
def nextPageURL (base nxt : Str) : Str :=
  if ¬ isAbsoluteURL nxt then base ++ nxt else nxt

/-- `getAllOrganizationPages` from `internal/api/snyk.go`, with the HTTP
fetch-and-decode of one page abstracted as `fetch` and the unbounded loop
given fuel; `none` means the loop did not finish within the fuel. Each page's
records are mapped to flat `Organization` values and appended in traversal
order; the loop continues exactly while the (resolved) next link is
nonempty. -/
def getAllOrganizationPages :
    Nat → (Str → Except Str Page) → Str → Str → Option (Except Str (List Organization))
  | 0, _, _, _ => none
  | fuel + 1, fetch, base, u =>
    if u = [] then some (.ok []) else
    match fetch u with
    | .error e => some (.error e)
    | .ok p =>
      let recs := p.data.map (fun r => Organization.mk r.id r.attrName r.attrSlug)
      let nxt := if p.next ≠ [] then nextPageURL base p.next else []
      match getAllOrganizationPages fuel fetch base nxt with
      | none => none
      | some (.error e) => some (.error e)
      | some (.ok rest) => some (.ok (recs ++ rest))

/-- Numeric value of a hexadecimal digit character, if any. -/
def hexDigitVal (c : Char) : Option Nat :=
  if '0' ≤ c ∧ c ≤ '9' then some (c.toNat - '0'.toNat)
  else if 'a' ≤ c ∧ c ≤ 'f' then some (c.toNat - 'a'.toNat + 10)
  else if 'A' ≤ c ∧ c ≤ 'F' then some (c.toNat - 'A'.toNat + 10)
  else none

/-- Modelled from the spec: percent-escape decoding ("link values … may be
percent/unicode-escaped (must be decoded before use)"), absent from the
source. `%XY` with two hex digits decodes to the corresponding character. -/
def percentDecode : Str → Str
  | '%' :: h1 :: h2 :: rest =>
    match hexDigitVal h1, hexDigitVal h2 with
    | some a, some b => Char.ofNat (16 * a + b) :: percentDecode rest
    | _, _ => '%' :: percentDecode (h1 :: h2 :: rest)
  | c :: rest => c :: percentDecode rest
  | [] => []

/-- Modelled from the spec: the claim's variant of the next-page computation,
which additionally percent-decodes the link before use. -/
def nextPageURLSpec (base nxt : Str) : Str :=
  percentDecode (nextPageURL base nxt)

/-- Modelled from the spec: `getAllOrganizationPages` as the claim describes
it, identical to the source except that next links are percent-decoded
before use. -/
def getAllOrganizationPagesSpec :
    Nat → (Str → Except Str Page) → Str → Str → Option (Except Str (List Organization))
  | 0, _, _, _ => none
  | fuel + 1, fetch, base, u =>
    if u = [] then some (.ok []) else
    match fetch u with
    | .error e => some (.error e)
    | .ok p =>
      let recs := p.data.map (fun r => Organization.mk r.id r.attrName r.attrSlug)
      let nxt := if p.next ≠ [] then nextPageURLSpec base p.next else []
      match getAllOrganizationPagesSpec fuel fetch base nxt with
      | none => none
      | some (.error e) => some (.error e)
      | some (.ok rest) => some (.ok (recs ++ rest))

/-- One row of the `organizations` table (`id` is the primary key). -/
structure OrgRow where
  id : Str
  name : Str
  slug : Str
deriving DecidableEq, Repr

/-- One row of the `targets` table (`id` is the primary key). -/
structure TargetRow where
  id : Str
  orgId : Str
  displayName : Str
  url : Str
deriving DecidableEq, Repr

/-- The persistent state of the SQLite cache: the three tables. Metadata
values are the timestamps the code writes (always `time.Now()` formatted and
re-parsed, so they are modelled directly as instants; the parse-failure
branches of the staleness checks cannot fire on states produced by the
modelled writes). -/
structure CacheState where
  organizations : List OrgRow
  targets : List TargetRow
  metadata : List (Str × Nat)
deriving DecidableEq, Repr

/-- The empty cache (fresh database file). -/
def emptyCache : CacheState := ⟨[], [], []⟩

/-- `INSERT OR REPLACE` into `organizations` keyed on `id`. -/
def upsertOrg (row : OrgRow) (t : List OrgRow) : List OrgRow :=
  t.filter (fun r => ¬ r.id = row.id) ++ [row]

/-- `INSERT OR REPLACE` into `targets` keyed on `id`. -/
def upsertTarget (row : TargetRow) (t : List TargetRow) : List TargetRow :=
  t.filter (fun r => ¬ r.id = row.id) ++ [row]

/-- `INSERT OR REPLACE` into `metadata` keyed on `key`. -/
def upsertMeta (key : Str) (v : Nat) (t : List (Str × Nat)) : List (Str × Nat) :=
  t.filter (fun kv => ¬ kv.1 = key) ++ [(key, v)]

/-- `SELECT value FROM metadata WHERE key = ?`. -/
def lookupMeta (s : CacheState) (key : Str) : Option Nat :=
  (s.metadata.find? (fun kv => kv.1 = key)).map (·.2)

/-- `SQLiteCache.StoreOrganizations`: upserts every organization by id, then
upserts the `last_update` timestamp to now — one transaction. -/
def storeOrganizations (now : Nat) (orgs : List Organization) (s : CacheState) :
    CacheState :=
  let orgTable := orgs.foldl (fun t o => upsertOrg ⟨o.id, o.name, o.slug⟩ t)
    s.organizations
  { s with
    organizations := orgTable
    metadata := upsertMeta (str "last_update") now s.metadata }

/-- `SQLiteCache.GetOrganizations`: all cached organizations. -/
def getOrganizationsCache (s : CacheState) : List Organization :=
  s.organizations.map (fun r => ⟨r.id, r.name, r.slug⟩)

/-- `SQLiteCache.IsExpired`: true when `last_update` is absent or
`time.Since(lastUpdate) > ttl`. -/
def isExpired (now : Nat) (ttl : Int) (s : CacheState) : Bool :=
  match lookupMeta s (str "last_update") with
  | none => true
  | some t => (now : Int) - (t : Int) > ttl

/-- The metadata key `targets_update_<orgID>`. -/
def targetsKey (orgID : Str) : Str := str "targets_update_" ++ orgID

/-- `SQLiteCache.StoreTargets`: a call with an empty list returns immediately
("Nothing to store"); otherwise upserts each target by id under `orgID` and
upserts that organization's `targets_update_<orgID>` timestamp — one
transaction. -/
def storeTargets (now : Nat) (orgID : Str) (targets : List Target) (s : CacheState) :
    CacheState :=
  if targets = [] then s
  else
    let targetTable := targets.foldl
      (fun t tg => upsertTarget ⟨tg.id, orgID, tg.displayName, tg.url⟩ t) s.targets
    { s with
      targets := targetTable
      metadata := upsertMeta (targetsKey orgID) now s.metadata }

/-- `SQLiteCache.GetTargetsByOrgID`: the targets of one organization,
reconstructed as `api.Target` values (the org id column is not copied). -/
def getTargetsByOrgID (s : CacheState) (orgID : Str) : List Target :=
  (s.targets.filter (fun r => r.orgId = orgID)).map
    (fun r => ⟨r.id, r.displayName, r.url⟩)

/-- `SQLiteCache.GetTargetsByURL`: builds both scheme variants of the URL and
runs the `LOWER(t.url) = LOWER(?) OR LOWER(t.url) = LOWER(?)` query joined
against `organizations` (an inner join: target rows whose organization is
missing produce no output row). -/
def getTargetsByURL (s : CacheState) (url : Str) : List OrgTarget :=
  let v := urlVariants url
  (s.targets.filter (fun t =>
      sqlLower t.url = sqlLower v.1 ∨ sqlLower t.url = sqlLower v.2)).filterMap
    (fun t => (s.organizations.find? (fun o => o.id = t.orgId)).map
      (fun o => ⟨t.orgId, o.name, t.url, t.displayName⟩))

/-- `SQLiteCache.IsTargetsCacheExpired`: per-organization staleness keyed on
`targets_update_<orgID>`. -/
def isTargetsCacheExpired (now : Nat) (orgID : Str) (ttl : Int) (s : CacheState) :
    Bool :=
  match lookupMeta s (targetsKey orgID) with
  | none => true
  | some t => (now : Int) - (t : Int) > ttl

/-- Which of the three `DELETE` statements of `ResetCache` fail (each is an
independent `Exec`, not wrapped in a transaction). -/
structure ResetFailures where
  failTargets : Bool
  failOrgs : Bool
  failMeta : Bool
deriving DecidableEq, Repr

/-- `SQLiteCache.ResetCache`: three sequential `DELETE` statements, returning
the persisted state together with the error (if any) at which the sequence
stopped. A failing statement leaves its table unchanged but earlier
successful deletes remain applied. -/
def resetCacheRun (f : ResetFailures) (s : CacheState) : CacheState × Option Str :=
  if f.failTargets then (s, some (str "failed to delete targets"))
  else
    let s1 : CacheState := { s with targets := [] }
    if f.failOrgs then (s1, some (str "failed to delete organizations"))
    else
      let s2 : CacheState := { s1 with organizations := [] }
      if f.failMeta then (s2, some (str "failed to delete metadata"))
      else ({ s2 with metadata := [] }, none)

/-- All three deletes succeed. -/
def noResetFailures : ResetFailures := ⟨false, false, false⟩

/-- The application configuration (`internal/config`). The cache TTL is a Go
`time.Duration`, modelled as an integer number of time units. -/
structure Config where
  cacheTTL : Int
  defaultOrg : Str
  verbose : Bool
deriving DecidableEq, Repr

/-- The `--cache-ttl` flag after `GetString`: empty, unparseable, or a parsed
duration (cobra's default is the parseable "24h", so `empty` only arises from
an explicit empty argument). -/
inductive TTLFlag where
  | empty : TTLFlag
  | invalid : TTLFlag
  | valid : Int → TTLFlag
deriving DecidableEq, Repr

/-- The command-line flags of the root command. -/
structure Flags where
  resetCache : Bool
  cacheTTL : TTLFlag
  org : Str
  listOrgs : Bool
  verbose : Bool
  gitURL : Str
  autoDetectGit : Bool
deriving DecidableEq, Repr

/-- The external world of one invocation: outcomes of config loading, token
acquisition (`GetSnykAPIToken` via `NewSnykClient`), git remote detection
(`GetGitRemoteURL`), and the live API calls. -/
structure Env where
  configLoad : Except Str Config
  tokenResult : Except Str Str
  gitRemote : Except Str Str
  apiOrgs : Except Str (List Organization)
  apiTargets : Str → Except Str (List Target)

/-- What one invocation does after resolution: fail with an error (the root
command then prints it and exits 1), execute the wrapped tool with
`SNYK_CFG_ORG` set, execute it without the variable, print the organization
list, or print help. -/
inductive RunOutcome where
  | error : Str → RunOutcome
  | execWith : Str → List Str → RunOutcome
  | execNone : List Str → RunOutcome
  | listOrgsOut : List Organization → RunOutcome
  | help : RunOutcome
deriving DecidableEq, Repr

/-- `SnykExecutor.Execute`: errors on an empty argument vector, otherwise
runs `snyk` with `SNYK_CFG_ORG` set exactly when the org id is nonempty. -/
def executeTool (orgID : Str) (args : List Str) : RunOutcome :=
  if args = [] then .error (str "no arguments provided")
  else if orgID = [] then .execNone args
  else .execWith orgID args

/-- `rootCmd.Run` exits with code 1 exactly when `run` returns an error. -/
def nonzeroExit : RunOutcome → Bool
  | .error _ => true
  | _ => false

/-- Whether the wrapped tool was executed at all. -/
def isExecOutcome : RunOutcome → Bool
  | .execWith _ _ => true
  | .execNone _ => true
  | _ => false

/-- The explicit-org / default-org matching loop: first organization whose
id, name or slug equals the requested string. -/
def findMatch (orgs : List Organization) (o : Str) : Option Str :=
  (orgs.find? (fun org => org.id = o ∨ org.name = o ∨ org.slug = o)).map (·.id)

/-- `getOrganizations` from `internal/app` (cache-or-API): serves from the
cache when it is fresh and nonempty; otherwise constructs a `SnykClient`
(acquiring a token — the returned flag records that), calls the API and
stores the result. Returns the organizations, the updated cache state, and
whether a client was constructed. -/
def getOrganizationsM (env : Env) (now : Nat) (cfg : Config) (s : CacheState) :
    Except Str (List Organization) × CacheState × Bool :=
  if isExpired now cfg.cacheTTL s = false ∧ getOrganizationsCache s ≠ [] then
    (.ok (getOrganizationsCache s), s, false)
  else
    match env.tokenResult with
    | .error e => (.error (str "failed to create Snyk client: " ++ e), s, true)
    | .ok _ =>
      match env.apiOrgs with
      | .error e => (.error (str "failed to get organizations from API: " ++ e), s, true)
      | .ok orgs => (.ok orgs, storeOrganizations now orgs s, true)

/-- `getTargets` from `internal/app` (cache-or-API, client already in hand):
serves from the per-organization cache when fresh and nonempty, otherwise
calls the API and stores a nonempty result. -/
def getTargetsM (env : Env) (now : Nat) (cfg : Config) (orgID : Str)
    (s : CacheState) : Except Str (List Target) × CacheState :=
  if isTargetsCacheExpired now orgID cfg.cacheTTL s = false ∧
      getTargetsByOrgID s orgID ≠ [] then
    (.ok (getTargetsByOrgID s orgID), s)
  else
    match env.apiTargets orgID with
    | .error e => (.error (str "failed to get targets from API: " ++ e), s)
    | .ok ts => (.ok ts, storeTargets now orgID ts s)

/-- The per-organization loop inside `findOrgByGitURL`: fetch each
organization's targets (cache-or-API), skip the organization on error, and
return the first organization owning a target equal to either URL variant. -/
def findOrgLoop (env : Env) (now : Nat) (cfg : Config) (v1 v2 : Str) :
    List Organization → CacheState → Except Str Str × CacheState
  | [], s => (.error (str "no organization found with a target matching URL"), s)
  | org :: rest, s =>
    match getTargetsM env now cfg org.id s with
    | (.error _, s1) => findOrgLoop env now cfg v1 v2 rest s1
    | (.ok ts, s1) =>
      if ts.any (fun t => t.url = v1 ∨ t.url = v2) then (.ok org.id, s1)
      else findOrgLoop env now cfg v1 v2 rest s1

/-- `findOrgByGitURL` from `internal/app`: cached URL index first
(`GetTargetsByURL`, with the scheme variants built inside the cache layer);
on a cache miss, fetch all organizations (cache-or-API) and scan each
organization's targets against the two scheme variants. The third component
records whether a `SnykClient` was constructed inside. -/
def findOrgByGitURL (env : Env) (now : Nat) (cfg : Config) (gitURL : Str)
    (s : CacheState) : Except Str Str × CacheState × Bool :=
  match getTargetsByURL s gitURL with
  | ot :: _ => (.ok ot.orgID, s, false)
  | [] =>
    match getOrganizationsM env now cfg s with
    | (.error e, s1, tk) => (.error (str "failed to get organizations: " ++ e), s1, tk)
    | (.ok orgs, s1, tk) =>
      let v := urlVariants gitURL
      let r := findOrgLoop env now cfg v.1 v.2 orgs s1
      (r.1, r.2, tk)

/-- Applying the `--cache-ttl` flag to the loaded config (`run` lines 61–67):
a nonempty flag value must parse, else the invocation fails. -/
def applyTTLFlag : TTLFlag → Config → Except Str Config
  | .empty, c => .ok c
  | .invalid, _ => .error (str "invalid cache TTL")
  | .valid d, c => .ok { c with cacheTTL := d }

/-- The tail of `run` (`internal/app`, cached-target variant) after the git
URL step: the configured default organization is resolved like an explicit
one but a miss falls through; with no organization the tool runs unscoped
(or help is shown when no arguments remain). -/
def defaultStep (env : Env) (now : Nat) (cfg : Config) (args : List Str)
    (s : CacheState) : RunOutcome × CacheState × Bool :=
  if cfg.defaultOrg ≠ [] then
    match getOrganizationsM env now cfg s with
    | (.error e, s1, _) => (.error (str "failed to get organizations: " ++ e), s1, true)
    | (.ok orgs, s1, _) =>
      match findMatch orgs cfg.defaultOrg with
      | some oid => (executeTool oid args, s1, true)
      | none =>
        if args = [] then (.help, s1, true) else (executeTool [] args, s1, true)
  else if args = [] then (.help, s, true)
  else (executeTool [] args, s, true)

/-- The git URL step of `run` (`internal/app`, cached-target variant): use
the explicit `--git-url` when given, otherwise detect the remote (a
detection failure runs the tool unscoped); a URL miss falls through to the
default-organization step. -/
def gitDefaultSteps (env : Env) (now : Nat) (cfg : Config) (flags : Flags)
    (args : List Str) (s : CacheState) : RunOutcome × CacheState × Bool :=
  if flags.gitURL ≠ [] ∨ flags.autoDetectGit then
    if flags.gitURL = [] ∧ flags.autoDetectGit then
      match env.gitRemote with
      | .error _ => (executeTool [] args, s, true)
      | .ok u =>
        if u ≠ [] then
          match findOrgByGitURL env now cfg u s with
          | (.ok oid, s1, _) => (executeTool oid args, s1, true)
          | (.error _, s1, _) => defaultStep env now cfg args s1
        else defaultStep env now cfg args s
    else
      if flags.gitURL ≠ [] then
        match findOrgByGitURL env now cfg flags.gitURL s with
        | (.ok oid, s1, _) => (executeTool oid args, s1, true)
        | (.error _, s1, _) => defaultStep env now cfg args s1
      else defaultStep env now cfg args s
  else defaultStep env now cfg args s

/-- `run` from `internal/app` (the cached-target variant, the one the design
notes designate as authoritative): config load, flag merging, optional cache
reset, the explicit `--org` step (fatal on no match), `--list-orgs`,
`SnykClient` construction, then the git URL and default-organization steps.
Returns the outcome, the final cache state, and whether a token was
acquired (a `SnykClient` was constructed). -/
def run (flags : Flags) (args : List Str) (env : Env) (now : Nat)
    (s : CacheState) : RunOutcome × CacheState × Bool :=
  match env.configLoad with
  | .error e => (.error (str "failed to load configuration: " ++ e), s, false)
  | .ok cfg0 =>
    let cfg1 := if flags.verbose then { cfg0 with verbose := true } else cfg0
    match applyTTLFlag flags.cacheTTL cfg1 with
    | .error e => (.error e, s, false)
    | .ok cfg =>
      let s1 := if flags.resetCache then emptyCache else s
      if flags.org ≠ [] then
        match getOrganizationsM env now cfg s1 with
        | (.error e, s2, tk) =>
          (.error (str "failed to get organizations: " ++ e), s2, tk)
        | (.ok orgs, s2, tk) =>
          match findMatch orgs flags.org with
          | some oid => (executeTool oid args, s2, tk)
          | none => (.error (str "organization not found: " ++ flags.org), s2, tk)
      else if flags.listOrgs then
        match getOrganizationsM env now cfg s1 with
        | (.error e, s2, tk) =>
          (.error (str "failed to get organizations: " ++ e), s2, tk)
        | (.ok orgs, s2, tk) => (.listOrgsOut orgs, s2, tk)
      else
        match env.tokenResult with
        | .error e => (.error (str "failed to create Snyk client: " ++ e), s1, true)
        | .ok _ => gitDefaultSteps env now cfg flags args s1

/-- A cache state with data in all three tables, used to exhibit a partial
reset. -/
def resetCexState : CacheState :=
  ⟨[⟨str "o1", str "Org One", str "org-1"⟩],
   [⟨str "t1", str "o1", str "repo", str "https://github.com/a/b"⟩],
   [(str "last_update", 5)]⟩

/-- A cache state holding one target with the literal URL `http://a`. -/
def caseCexCache : CacheState :=
  ⟨[⟨str "o1", str "Org One", str "org-1"⟩],
   [⟨str "t1", str "o1", str "repo", str "http://a"⟩], []⟩

/-- An API with one organization owning one target with URL `https://a`. -/
def caseCexApi : ApiEnv :=
  ⟨.ok [⟨str "o1", str "Org One", str "org-1"⟩],
   fun _ => .ok [⟨str "t1", str "repo", str "https://a"⟩]⟩

/-- A finite chain of response pages reachable from a start URL: each page is
what `fetch` yields at its URL, each non-final page's next link is nonempty
and resolves (by the source's rule) to the following page's URL, and the
final page's next link is empty. -/
inductive PageChain (fetch : Str → Except Str Page) (base : Str) :
    Str → List Page → Prop
  | last {u p} : u ≠ [] → fetch u = .ok p → p.next = [] →
      PageChain fetch base u [p]
  | cons {u p ps} : u ≠ [] → fetch u = .ok p → p.next ≠ [] →
      PageChain fetch base (nextPageURL base p.next) ps →
      PageChain fetch base u (p :: ps)

/-- The flat organizations a list of pages contributes, in traversal order. -/
def pagesOrganizations (ps : List Page) : List Organization :=
  ps.flatMap (fun p => p.data.map (fun r => Organization.mk r.id r.attrName r.attrSlug))

/-- C4 witness: a concrete two-page chain, with a relative next link. -/
def witnessBase : Str := str "https://api.snyk.io/rest"

/-- First page of the witness chain. -/
def witnessPage1 : Page :=
  ⟨[⟨str "org-id-1", str "Organization 1", str "org-slug-1"⟩],
   str "/orgs?starting_after=org-id-1"⟩

/-- Second (final) page of the witness chain. -/
def witnessPage2 : Page :=
  ⟨[⟨str "org-id-2", str "Organization 2", str "org-slug-2"⟩], []⟩

/-- The witness fetch function: two pages, anything else is a 404. -/
def witnessFetch (u : Str) : Except Str Page :=
  if u = witnessBase ++ str "/orgs" then .ok witnessPage1
  else if u = witnessBase ++ str "/orgs?starting_after=org-id-1" then .ok witnessPage2
  else .error (str "unexpected status code: 404")

/-- First page of the percent-escape counterexample: its next link carries a
percent-escaped character. -/
def escPage1 : Page :=
  ⟨[⟨str "org-id-1", str "Organization 1", str "org-slug-1"⟩], str "/orgs?a=%2F"⟩

/-- Second page of the percent-escape counterexample, served at the
percent-DECODED URL (the two URLs name the same resource per RFC 3986). -/
def escPage2 : Page :=
  ⟨[⟨str "org-id-2", str "Organization 2", str "org-slug-2"⟩], []⟩

/-- The counterexample fetch: the second page is available only under the
decoded form of the next link. -/
def escFetch (u : Str) : Except Str Page :=
  if u = witnessBase ++ str "/orgs" then .ok escPage1
  else if u = witnessBase ++ str "/orgs?a=/" then .ok escPage2
  else .error (str "unexpected status code: 404")

/-- A configuration with a one-day TTL and no default organization. -/
def wCfg : Config := ⟨86400, [], false⟩

/-- The organization used by the concrete run-level fixtures. -/
def wOrg : Organization := ⟨str "org-id-1", str "Organization 1", str "org-1"⟩

/-- A cache state whose organization list is fresh at time 50. -/
def freshState : CacheState :=
  ⟨[⟨str "org-id-1", str "Organization 1", str "org-1"⟩], [],
   [(str "last_update", 50)]⟩

/-- An environment where everything works. -/
def wEnvOk : Env :=
  ⟨.ok wCfg, .ok (str "tok"), .error (str "no git"), .ok [wOrg], fun _ => .ok []⟩

/-- An environment with no token available (every other call also fails). -/
def wEnvNoTok : Env :=
  ⟨.ok wCfg, .error (str "no token"), .error (str "no git"),
   .error (str "api down"), fun _ => .error (str "api down")⟩

/-- Flags selecting `--org=org-1`. -/
def wFlagsOrg : Flags := ⟨false, .empty, str "org-1", false, false, [], true⟩

/-- Flags selecting `--org=nope` (matching nothing). -/
def wFlagsOrgMiss : Flags := ⟨false, .empty, str "nope", false, false, [], true⟩

/-- C3 counterexample state: organization list and the relevant targets are
both fresh in cache at time 100, and the cached URL index alone resolves the
git URL. -/
def c3State : CacheState :=
  ⟨[⟨str "o1", str "Org One", str "org-1"⟩],
   [⟨str "t1", str "o1", str "widgets", str "https://github.com/acme/widgets"⟩],
   [(str "last_update", 100), (targetsKey (str "o1"), 100)]⟩

/-- Flags with an explicit `--git-url` and nothing else. -/
def c3Flags : Flags :=
  ⟨false, .empty, [], false, false, str "https://github.com/acme/widgets", true⟩

/-- Flags selecting `--list-orgs`. -/
def wFlagsList : Flags := ⟨false, .empty, [], true, false, [], true⟩

/-- A cache state at time 50 with a fresh organization list and fresh but
non-matching targets, so the git-URL step misses everywhere. -/
def missState : CacheState :=
  ⟨[⟨str "org-id-1", str "Organization 1", str "org-1"⟩],
   [⟨str "t1", str "org-id-1", str "other", str "https://github.com/other/repo"⟩],
   [(str "last_update", 50), (targetsKey (str "org-id-1"), 50)]⟩

/-- Flags giving an explicit `--git-url` that matches no target. -/
def missFlags : Flags :=
  ⟨false, .empty, [], false, false, str "https://github.com/acme/widgets", true⟩

theorem startsWith_append_self (p r : Str) : startsWith (p ++ r) p = true := by
  simp [startsWith, List.isPrefixOf_iff_prefix]

theorem trimStart_append (p r : Str) : trimStart (p ++ r) p = r := by
  simp [trimStart, startsWith_append_self]

theorem trimEnd_append (x suf : Str) : trimEnd (x ++ suf) suf = x := by
  have h : endsWith (x ++ suf) suf = true := by
    simp [endsWith, List.isSuffixOf_iff_suffix]
  simp [trimEnd, h, List.take_left]

theorem trimEnd_of_not_endsWith {s suf : Str} (h : ¬ endsWith s suf = true) :
    trimEnd s suf = s := by
  simp [trimEnd, h]

theorem splitOnChar_ne_nil (c : Char) (s : Str) : splitOnChar c s ≠ [] := by
  induction s with
  | nil => simp [splitOnChar]
  | cons x xs ih =>
    simp only [splitOnChar]
    cases hs : splitOnChar c xs with
    | nil => exact absurd hs ih
    | cons y ys => by_cases hx : x = c <;> simp [hx]

theorem splitOnChar_length_cons (c : Char) (x : Char) (xs : Str) :
    (splitOnChar c (x :: xs)).length =
      (if x = c then 1 else 0) + (splitOnChar c xs).length := by
  simp only [splitOnChar]
  cases hs : splitOnChar c xs with
  | nil => exact absurd hs (splitOnChar_ne_nil c xs)
  | cons y ys => by_cases hx : x = c <;> simp [hx] <;> omega

theorem one_le_splitOnChar_length (c : Char) (s : Str) :
    1 ≤ (splitOnChar c s).length := by
  cases hs : splitOnChar c s with
  | nil => exact absurd hs (splitOnChar_ne_nil c s)
  | cons y ys => simp

theorem three_le_splitOnChar_https (w : Str) :
    3 ≤ (splitOnChar '/' (str "https://" ++ w)).length := by
  show 3 ≤ (splitOnChar '/' ('h' :: 't' :: 't' :: 'p' :: 's' :: ':' :: '/' :: '/' :: w)).length
  rw [splitOnChar_length_cons, splitOnChar_length_cons, splitOnChar_length_cons,
    splitOnChar_length_cons, splitOnChar_length_cons, splitOnChar_length_cons,
    splitOnChar_length_cons, splitOnChar_length_cons]
  have := one_le_splitOnChar_length '/' w
  simp only [reduceIte, Char.reduceEq]
  omega

theorem splitOnChar_of_not_mem {c : Char} {s : Str} (h : c ∉ s) :
    splitOnChar c s = [s] := by
  induction s with
  | nil => rfl
  | cons x xs ih =>
    have hx : ¬ x = c := fun he => h (he ▸ List.mem_cons_self x xs)
    have hxs : c ∉ xs := fun hm => h (List.mem_cons_of_mem x hm)
    simp [splitOnChar, ih hxs, hx]

theorem splitOnChar_append_sep {c : Char} {a b : Str} (ha : c ∉ a) (hb : c ∉ b) :
    splitOnChar c (a ++ c :: b) = [a, b] := by
  induction a with
  | nil => simp [splitOnChar, splitOnChar_of_not_mem hb]
  | cons x xs ih =>
    have hx : ¬ x = c := fun he => ha (he ▸ List.mem_cons_self x xs)
    have hxs : c ∉ xs := fun hm => ha (List.mem_cons_of_mem x hm)
    simp [splitOnChar, ih hxs, hx]

theorem sqlLower_append (a b : Str) : sqlLower (a ++ b) = sqlLower a ++ sqlLower b := by
  simp [sqlLower]

theorem startsWith_of_take {s p : Str} {k : ℕ}
    (h : startsWith (s.take k) p = true) : startsWith s p = true := by
  rw [startsWith, List.isPrefixOf_iff_prefix] at h ⊢
  exact h.trans (List.take_prefix k s)

theorem startsWith_trimEnd {s p suf : Str}
    (h : startsWith (trimEnd s suf) p = true) : startsWith s p = true := by
  unfold trimEnd at h
  split at h
  · exact startsWith_of_take h
  · exact h

theorem startsWith_https_not_git_at (w : Str) :
    startsWith (str "https://" ++ w) (str "git@") = false := rfl

theorem startsWith_https_not_gitp (w : Str) :
    startsWith (str "https://" ++ w) (str "git://") = false := rfl

theorem startsWith_https_not_http (w : Str) :
    startsWith (str "https://" ++ w) (str "http://") = false := rfl

theorem startsWith_http_not_git_at (w : Str) :
    startsWith (str "http://" ++ w) (str "git@") = false := rfl

theorem startsWith_http_not_gitp (w : Str) :
    startsWith (str "http://" ++ w) (str "git://") = false := rfl

theorem startsWith_http_not_https (w : Str) :
    startsWith (str "http://" ++ w) (str "https://") = false := rfl

theorem startsWith_gitp_not_git_at (w : Str) :
    startsWith (str "git://" ++ w) (str "git@") = false := rfl

/-- An input already of the form `https://…` that ends in neither `.git` nor
`/` passes through `normalizeRepoURL` unchanged. -/
theorem normalize_https_noop (w : Str)
    (hg : ¬ endsWith (str "https://" ++ w) (str ".git") = true)
    (hs : ¬ endsWith (str "https://" ++ w) (str "/") = true) :
    normalizeRepoURL (str "https://" ++ w) = .ok (str "https://" ++ w) := by
  unfold normalizeRepoURL normalizeCandidate
  rw [if_neg (by simp [str])]
  simp only [startsWith_https_not_git_at, startsWith_https_not_gitp,
    startsWith_https_not_http, startsWith_append_self, Bool.false_eq_true,
    if_false, if_true, trimEnd_of_not_endsWith hg, trimEnd_of_not_endsWith hs]
  have h3 := three_le_splitOnChar_https w
  simp [startsWith_append_self, h3]

/-- SSH shorthand with the literal `git@` user and a `.git` suffix converts to
the HTTPS form. -/
theorem normalize_ssh_git (host rest : Str) (hh : ':' ∉ host) (hr : ':' ∉ rest)
    (hg : ¬ endsWith (str "https://" ++ (host ++ (str "/" ++ rest))) (str ".git") = true)
    (hs : ¬ endsWith (str "https://" ++ (host ++ (str "/" ++ rest))) (str "/") = true) :
    normalizeRepoURL (str "git@" ++ host ++ str ":" ++ rest ++ str ".git") =
      .ok (str "https://" ++ (host ++ (str "/" ++ rest))) := by
  have hmem : ':' ∉ ('g' :: 'i' :: 't' :: '@' :: host) := by simpa using hh
  have htrim : trimEnd (str "git@" ++ host ++ str ":" ++ rest ++ str ".git")
      (str ".git") = str "git@" ++ host ++ str ":" ++ rest := by
    have := trimEnd_append (str "git@" ++ host ++ str ":" ++ rest) (str ".git")
    simpa using this
  have hsplit : splitOnChar ':' (str "git@" ++ host ++ str ":" ++ rest) =
      [str "git@" ++ host, rest] := by
    have := splitOnChar_append_sep (a := str "git@" ++ host) (b := rest) hmem hr
    simpa [List.append_assoc] using this
  have hsw : startsWith (str "git@" ++ host ++ str ":" ++ rest ++ str ".git")
      (str "git@") = true := by
    have := startsWith_append_self (str "git@")
      (host ++ (str ":" ++ (rest ++ str ".git")))
    simpa [List.append_assoc] using this
  unfold normalizeRepoURL normalizeCandidate
  rw [if_neg (by exact List.cons_ne_nil _ _)]
  simp only [hsw, if_true, htrim, hsplit, trimStart_append]
  have hassoc : str "https://" ++ host ++ str "/" ++ rest =
      str "https://" ++ (host ++ (str "/" ++ rest)) := by
    simp [List.append_assoc]
  rw [hassoc]
  simp only [startsWith_https_not_gitp, startsWith_https_not_http,
    Bool.false_eq_true, if_false, startsWith_append_self, if_true,
    trimEnd_of_not_endsWith hg, trimEnd_of_not_endsWith hs]
  have h3 := three_le_splitOnChar_https (host ++ (str "/" ++ rest))
  simp [startsWith_append_self, h3]

/-- SSH shorthand with the literal `git@` user and no `.git` suffix also
converts to the HTTPS form. -/
theorem normalize_ssh_plain (host rest : Str) (hh : ':' ∉ host) (hr : ':' ∉ rest)
    (h0 : ¬ endsWith (str "git@" ++ host ++ str ":" ++ rest) (str ".git") = true)
    (hg : ¬ endsWith (str "https://" ++ (host ++ (str "/" ++ rest))) (str ".git") = true)
    (hs : ¬ endsWith (str "https://" ++ (host ++ (str "/" ++ rest))) (str "/") = true) :
    normalizeRepoURL (str "git@" ++ host ++ str ":" ++ rest) =
      .ok (str "https://" ++ (host ++ (str "/" ++ rest))) := by
  have hmem : ':' ∉ ('g' :: 'i' :: 't' :: '@' :: host) := by simpa using hh
  have hsplit : splitOnChar ':' (str "git@" ++ host ++ str ":" ++ rest) =
      [str "git@" ++ host, rest] := by
    have := splitOnChar_append_sep (a := str "git@" ++ host) (b := rest) hmem hr
    simpa [List.append_assoc] using this
  have hsw : startsWith (str "git@" ++ host ++ str ":" ++ rest)
      (str "git@") = true := by
    have := startsWith_append_self (str "git@") (host ++ (str ":" ++ rest))
    simpa [List.append_assoc] using this
  unfold normalizeRepoURL normalizeCandidate
  rw [if_neg (by exact List.cons_ne_nil _ _)]
  simp only [hsw, if_true, trimEnd_of_not_endsWith h0, hsplit, trimStart_append]
  have hassoc : str "https://" ++ host ++ str "/" ++ rest =
      str "https://" ++ (host ++ (str "/" ++ rest)) := by
    simp [List.append_assoc]
  rw [hassoc]
  simp only [startsWith_https_not_gitp, startsWith_https_not_http,
    Bool.false_eq_true, if_false, startsWith_append_self, if_true,
    trimEnd_of_not_endsWith hg, trimEnd_of_not_endsWith hs]
  have h3 := three_le_splitOnChar_https (host ++ (str "/" ++ rest))
  simp [startsWith_append_self, h3]

/-- `git://` URLs with a `.git` suffix are upgraded to HTTPS and stripped. -/
theorem normalize_gitp (rest : Str)
    (hg : ¬ endsWith (str "https://" ++ rest) (str ".git") = true)
    (hs : ¬ endsWith (str "https://" ++ rest) (str "/") = true) :
    normalizeRepoURL (str "git://" ++ rest ++ str ".git") =
      .ok (str "https://" ++ rest) := by
  have hng : startsWith (str "git://" ++ rest ++ str ".git") (str "git@") = false := by
    have := startsWith_gitp_not_git_at (rest ++ str ".git")
    simpa [List.append_assoc] using this
  have hswg : startsWith (str "git://" ++ rest ++ str ".git") (str "git://") = true := by
    have := startsWith_append_self (str "git://") (rest ++ str ".git")
    simpa [List.append_assoc] using this
  have htrim : trimEnd (str "git://" ++ rest ++ str ".git") (str ".git") =
      str "git://" ++ rest := by
    have := trimEnd_append (str "git://" ++ rest) (str ".git")
    simpa using this
  unfold normalizeRepoURL normalizeCandidate
  rw [if_neg (by exact List.cons_ne_nil _ _)]
  simp only [hng, Bool.false_eq_true, if_false, hswg, if_true, htrim,
    trimStart_append, startsWith_https_not_http, startsWith_append_self,
    trimEnd_of_not_endsWith hg, trimEnd_of_not_endsWith hs]
  have h3 := three_le_splitOnChar_https rest
  simp [startsWith_append_self, h3]

/-- `http://` URLs are upgraded to HTTPS. -/
theorem normalize_http (rest : Str)
    (hg : ¬ endsWith (str "https://" ++ rest) (str ".git") = true)
    (hs : ¬ endsWith (str "https://" ++ rest) (str "/") = true) :
    normalizeRepoURL (str "http://" ++ rest) = .ok (str "https://" ++ rest) := by
  unfold normalizeRepoURL normalizeCandidate
  rw [if_neg (by exact List.cons_ne_nil _ _)]
  simp only [startsWith_http_not_git_at, startsWith_http_not_gitp,
    Bool.false_eq_true, if_false, startsWith_append_self, if_true,
    trimStart_append, startsWith_https_not_http,
    trimEnd_of_not_endsWith hg, trimEnd_of_not_endsWith hs]
  have h3 := three_le_splitOnChar_https rest
  simp [startsWith_append_self, h3]

/-- Inputs matching none of the recognized schemes fail with the
invalid-format error (they are not upgraded to HTTPS). -/
theorem normalize_no_scheme_fails (u : Str) (h0 : u ≠ [])
    (h1 : ¬ startsWith u (str "git@") = true)
    (h2 : ¬ startsWith u (str "git://") = true)
    (h3 : ¬ startsWith u (str "http://") = true)
    (h4 : ¬ startsWith u (str "https://") = true) :
    normalizeRepoURL u =
      .error (str "invalid repository URL format: " ++ trimEnd u (str "/")) := by
  have h5 : ¬ startsWith (trimEnd u (str "/")) (str "https://") = true :=
    fun hc => h4 (startsWith_trimEnd hc)
  unfold normalizeRepoURL normalizeCandidate
  rw [if_neg h0]
  simp only [h1, h2, h3, h4, Bool.false_eq_true, if_false]
  rw [if_neg]
  intro hc
  exact h5 hc.1

theorem find?_upsertMeta (k : Str) (v : Nat) (m : List (Str × Nat)) :
    (upsertMeta k v m).find? (fun kv => kv.1 = k) = some (k, v) := by
  unfold upsertMeta
  induction m with
  | nil => simp
  | cons x xs ih =>
    by_cases hx : x.1 = k
    · simpa [List.filter, hx] using ih
    · simpa [List.filter, hx, List.find?] using ih

theorem lookupMeta_storeOrganizations (now : Nat) (orgs : List Organization)
    (s : CacheState) :
    lookupMeta (storeOrganizations now orgs s) (str "last_update") = some now := by
  simp [lookupMeta, storeOrganizations, find?_upsertMeta]

/-- C5: for every organization id and cache state, `storeTargets` with an
empty list is a no-op — the state is unchanged, so `getTargetsByOrgID` and
`isTargetsCacheExpired` (for any organization and ttl) answer as before. -/
theorem storeTargets_empty_noop (now now2 : Nat) (orgID orgID2 : Str)
    (ttl : Int) (s : CacheState) :
    storeTargets now orgID [] s = s ∧
    getTargetsByOrgID (storeTargets now orgID [] s) orgID2 =
      getTargetsByOrgID s orgID2 ∧
    isTargetsCacheExpired now2 orgID2 ttl (storeTargets now orgID [] s) =
      isTargetsCacheExpired now2 orgID2 ttl s :=
  ⟨rfl, rfl, rfl⟩

/-- C10: `storeOrganizations` with an empty list is not a no-op — it upserts
`last_update` to now, so `isExpired` is false for every positive ttl
immediately afterwards, while the organizations table is untouched (in
particular still empty when it was empty). -/
theorem storeOrganizations_empty_bumps (now : Nat) (ttl : Int) (s : CacheState)
    (h : 0 < ttl) :
    lookupMeta (storeOrganizations now [] s) (str "last_update") = some now ∧
    isExpired now ttl (storeOrganizations now [] s) = false ∧
    (storeOrganizations now [] s).organizations = s.organizations ∧
    (s.organizations = [] → getOrganizationsCache (storeOrganizations now [] s) = []) := by
  refine ⟨lookupMeta_storeOrganizations now [] s, ?_, rfl, ?_⟩
  · rw [isExpired, lookupMeta_storeOrganizations now [] s]
    simp only [decide_eq_false_iff_not, not_lt]
    omega
  · intro he
    simp [getOrganizationsCache, storeOrganizations, he]

/-- C10 witness: a concrete instantiation at ttl = 1 on the empty cache. -/
theorem storeOrganizations_empty_bumps_witness :
    lookupMeta (storeOrganizations 7 [] emptyCache) (str "last_update") = some 7 ∧
    isExpired 7 1 (storeOrganizations 7 [] emptyCache) = false ∧
    (storeOrganizations 7 [] emptyCache).organizations = emptyCache.organizations ∧
    (emptyCache.organizations = [] →
      getOrganizationsCache (storeOrganizations 7 [] emptyCache) = []) :=
  storeOrganizations_empty_bumps 7 1 emptyCache (by decide)

/-- C7 counterexample: when the second `DELETE` (organizations) fails, the
caller observes a state with the targets table cleared but the organizations
and metadata tables intact — neither the pre-reset nor the fully emptied
state. -/
theorem resetCache_partial_state_cex :
    ((resetCacheRun ⟨false, true, false⟩ resetCexState).2 =
      some (str "failed to delete organizations")) ∧
    (resetCacheRun ⟨false, true, false⟩ resetCexState).1.targets = [] ∧
    (resetCacheRun ⟨false, true, false⟩ resetCexState).1.organizations =
      resetCexState.organizations ∧
    (resetCacheRun ⟨false, true, false⟩ resetCexState).1.metadata =
      resetCexState.metadata ∧
    (resetCacheRun ⟨false, true, false⟩ resetCexState).1 ≠ resetCexState ∧
    (resetCacheRun ⟨false, true, false⟩ resetCexState).1 ≠ emptyCache := by
  refine ⟨rfl, rfl, rfl, rfl, by decide, by decide⟩

/-- C7 amended: `ResetCache` deletes targets, then organizations, then
metadata as three sequential statements; when all three succeed the cache is
fully emptied, but the statements are not one transaction, so a mid-sequence
failure leaves the earlier deletes applied (see the counterexample). -/
theorem resetCache_success_clears_all (s : CacheState) :
    resetCacheRun noResetFailures s = (emptyCache, none) := rfl

/-- C8 counterexample: the protocol-agnostic input `host/owner/repo` does not
normalize to `https://host/owner/repo`; `NormalizeRepoURL` rejects it. -/
theorem normalize_protocol_agnostic_cex :
    normalizeRepoURL (str "gitlab.com/owner/repo") =
      .error (str "invalid repository URL format: gitlab.com/owner/repo") := rfl

/-- C8 amended: `NormalizeRepoURL` succeeds on SSH shorthand with the literal
user `git` (`git@host:owner/repo[.git]`), on `git://host/owner/repo.git`, and
on `http://`/`https://` URLs, producing an HTTPS URL with one trailing `.git`
and one trailing slash stripped; inputs with none of these four prefixes —
protocol-agnostic `host/owner/repo` included — fail with the invalid-format
error. -/
theorem normalize_supported_formats :
    (∀ host rest, ':' ∉ host → ':' ∉ rest →
      ¬ endsWith (str "https://" ++ (host ++ (str "/" ++ rest))) (str ".git") = true →
      ¬ endsWith (str "https://" ++ (host ++ (str "/" ++ rest))) (str "/") = true →
      normalizeRepoURL (str "git@" ++ host ++ str ":" ++ rest ++ str ".git") =
        .ok (str "https://" ++ (host ++ (str "/" ++ rest)))) ∧
    (∀ host rest, ':' ∉ host → ':' ∉ rest →
      ¬ endsWith (str "git@" ++ host ++ str ":" ++ rest) (str ".git") = true →
      ¬ endsWith (str "https://" ++ (host ++ (str "/" ++ rest))) (str ".git") = true →
      ¬ endsWith (str "https://" ++ (host ++ (str "/" ++ rest))) (str "/") = true →
      normalizeRepoURL (str "git@" ++ host ++ str ":" ++ rest) =
        .ok (str "https://" ++ (host ++ (str "/" ++ rest)))) ∧
    (∀ rest, ¬ endsWith (str "https://" ++ rest) (str ".git") = true →
      ¬ endsWith (str "https://" ++ rest) (str "/") = true →
      normalizeRepoURL (str "git://" ++ rest ++ str ".git") =
        .ok (str "https://" ++ rest)) ∧
    (∀ rest, ¬ endsWith (str "https://" ++ rest) (str ".git") = true →
      ¬ endsWith (str "https://" ++ rest) (str "/") = true →
      normalizeRepoURL (str "http://" ++ rest) = .ok (str "https://" ++ rest)) ∧
    (∀ rest, ¬ endsWith (str "https://" ++ rest) (str ".git") = true →
      ¬ endsWith (str "https://" ++ rest) (str "/") = true →
      normalizeRepoURL (str "https://" ++ rest) = .ok (str "https://" ++ rest)) ∧
    (∀ u, u ≠ [] → ¬ startsWith u (str "git@") = true →
      ¬ startsWith u (str "git://") = true →
      ¬ startsWith u (str "http://") = true →
      ¬ startsWith u (str "https://") = true →
      normalizeRepoURL u =
        .error (str "invalid repository URL format: " ++ trimEnd u (str "/"))) :=
  ⟨normalize_ssh_git, normalize_ssh_plain, normalize_gitp, normalize_http,
   normalize_https_noop, normalize_no_scheme_fails⟩

/-- C8 witness: concrete instances of each supported format and of the
no-scheme failure. -/
theorem normalize_supported_formats_witness :
    normalizeRepoURL (str "git@github.com:owner/repo.git") =
      .ok (str "https://github.com/owner/repo") ∧
    normalizeRepoURL (str "git@github.com:owner/repo") =
      .ok (str "https://github.com/owner/repo") ∧
    normalizeRepoURL (str "git://github.com/owner/repo.git") =
      .ok (str "https://github.com/owner/repo") ∧
    normalizeRepoURL (str "http://github.com/owner/repo") =
      .ok (str "https://github.com/owner/repo") ∧
    normalizeRepoURL (str "https://github.com/owner/repo") =
      .ok (str "https://github.com/owner/repo") ∧
    normalizeRepoURL (str "gitlab.com/owner/repo") =
      .error (str "invalid repository URL format: gitlab.com/owner/repo") := by
  obtain ⟨h1, h2, h3, h4, h5, h6⟩ := normalize_supported_formats
  exact ⟨h1 (str "github.com") (str "owner/repo") (by decide) (by decide)
      (by decide) (by decide),
    h2 (str "github.com") (str "owner/repo") (by decide) (by decide) (by decide)
      (by decide) (by decide),
    h3 (str "github.com/owner/repo") (by decide) (by decide),
    h4 (str "github.com/owner/repo") (by decide) (by decide),
    h5 (str "github.com/owner/repo") (by decide) (by decide),
    h6 (str "gitlab.com/owner/repo") (by decide) (by decide) (by decide)
      (by decide) (by decide)⟩

/-- C9 counterexample: normalization is not idempotent —
`https://a/b.git/` normalizes to `https://a/b.git`, but normalizing that
output again yields `https://a/b`, a different value. -/
theorem normalize_not_idempotent_cex :
    normalizeRepoURL (str "https://a/b.git/") = .ok (str "https://a/b.git") ∧
    normalizeRepoURL (str "https://a/b.git") = .ok (str "https://a/b") ∧
    str "https://a/b" ≠ str "https://a/b.git" :=
  ⟨rfl, rfl, by decide⟩

theorem normalize_ok_startsWith {u v : Str} (h : normalizeRepoURL u = .ok v) :
    startsWith v (str "https://") = true := by
  unfold normalizeRepoURL at h
  split at h
  · simp at h
  · dsimp only at h
    split at h
    next hc => cases h; exact hc.1
    next => simp at h

/-- C9 amended: normalization is idempotent on every input whose successful
output ends in neither `.git` nor `/` (outputs that do end so — produced by
inputs like `x.git.git` or `x.git/` — are changed again by a second pass). -/
theorem normalize_idempotent_on_clean (u v : Str)
    (h : normalizeRepoURL u = .ok v)
    (hg : ¬ endsWith v (str ".git") = true)
    (hs : ¬ endsWith v (str "/") = true) :
    normalizeRepoURL v = .ok v := by
  have hsw := normalize_ok_startsWith h
  rw [startsWith, List.isPrefixOf_iff_prefix] at hsw
  obtain ⟨w, hw⟩ := hsw
  subst hw
  exact normalize_https_noop w hg hs

/-- C9 witness: `http://x/y` normalizes to `https://x/y`, on which a second
normalization is the identity. -/
theorem normalize_idempotent_witness :
    normalizeRepoURL (str "https://x/y") = .ok (str "https://x/y") :=
  normalize_idempotent_on_clean (str "http://x/y") (str "https://x/y") rfl
    (by decide) (by decide)

theorem urlVariants_http (x : Str) :
    urlVariants (str "http://" ++ x) = (str "http://" ++ x, str "https://" ++ x) := by
  unfold urlVariants
  rw [startsWith_http_not_https]
  simp only [Bool.false_eq_true, if_false, startsWith_append_self, if_true,
    trimStart_append]

theorem urlVariants_https (x : Str) :
    urlVariants (str "https://" ++ x) = (str "http://" ++ x, str "https://" ++ x) := by
  unfold urlVariants
  simp only [startsWith_append_self, if_true, trimStart_append]

/-- C6 counterexample: two URLs differing only by letter case (their
lowercasings agree) on which `GetTargetsByURL` returns different result
sets, and likewise two case-variant URLs on which `FindOrgWithTargetURL`
disagrees — the matching is not case-insensitive. -/
theorem url_match_case_sensitivity_cex :
    sqlLower (str "Http://a") = sqlLower (str "http://a") ∧
    getTargetsByURL caseCexCache (str "http://a") =
      [⟨str "o1", str "Org One", str "http://a", str "repo"⟩] ∧
    getTargetsByURL caseCexCache (str "Http://a") = [] ∧
    sqlLower (str "https://A") = sqlLower (str "https://a") ∧
    findOrgWithTargetURL caseCexApi (str "https://a") =
      .ok ⟨str "o1", str "Org One", str "https://a", str "repo"⟩ ∧
    findOrgWithTargetURL caseCexApi (str "https://A") =
      .error (str "no organization found with a target matching URL") := by
  refine ⟨by decide, by decide, by decide, by decide, rfl, rfl⟩

/-- C6 amended: both lookups are scheme-insensitive — swapping an exact
`http://` prefix for `https://` (or vice versa) never changes the result of
`GetTargetsByURL` or `FindOrgWithTargetURL`; and `GetTargetsByURL` (whose SQL
compares `LOWER` values) is additionally case-insensitive in the part of the
URL after such a scheme prefix. `FindOrgWithTargetURL` compares target URLs
case-sensitively, and case differences inside the scheme prefix itself
change how both functions build their query variants (see the
counterexample). -/
theorem url_match_scheme_insensitive :
    (∀ (s : CacheState) (x : Str),
      getTargetsByURL s (str "http://" ++ x) =
        getTargetsByURL s (str "https://" ++ x)) ∧
    (∀ (api : ApiEnv) (x : Str),
      findOrgWithTargetURL api (str "http://" ++ x) =
        findOrgWithTargetURL api (str "https://" ++ x)) ∧
    (∀ (s : CacheState) (x y : Str), sqlLower x = sqlLower y →
      getTargetsByURL s (str "http://" ++ x) =
        getTargetsByURL s (str "http://" ++ y) ∧
      getTargetsByURL s (str "https://" ++ x) =
        getTargetsByURL s (str "https://" ++ y)) := by
  refine ⟨?_, ?_, ?_⟩
  · intro s x
    unfold getTargetsByURL
    rw [urlVariants_http, urlVariants_https]
  · intro api x
    unfold findOrgWithTargetURL
    rw [urlVariants_http, urlVariants_https]
  · intro s x y h
    have e1 : sqlLower (str "http://" ++ x) = sqlLower (str "http://" ++ y) := by
      rw [sqlLower_append, sqlLower_append, h]
    have e2 : sqlLower (str "https://" ++ x) = sqlLower (str "https://" ++ y) := by
      rw [sqlLower_append, sqlLower_append, h]
    constructor
    · unfold getTargetsByURL
      rw [urlVariants_http, urlVariants_http]
      dsimp only
      rw [e1, e2]
    · unfold getTargetsByURL
      rw [urlVariants_https, urlVariants_https]
      dsimp only
      rw [e1, e2]

/-- C6 witness: concrete instantiations of the three amended parts. -/
theorem url_match_scheme_insensitive_witness :
    getTargetsByURL caseCexCache (str "http://" ++ str "a") =
      getTargetsByURL caseCexCache (str "https://" ++ str "a") ∧
    findOrgWithTargetURL caseCexApi (str "http://" ++ str "a") =
      findOrgWithTargetURL caseCexApi (str "https://" ++ str "a") ∧
    getTargetsByURL caseCexCache (str "http://" ++ str "A") =
      getTargetsByURL caseCexCache (str "http://" ++ str "a") := by
  obtain ⟨h1, h2, h3⟩ := url_match_scheme_insensitive
  exact ⟨h1 caseCexCache (str "a"), h2 caseCexApi (str "a"),
    (h3 caseCexCache (str "A") (str "a") (by decide)).1⟩

/-- C4 amended: for every chain of N pages linked via next links — resolved
against the configured base URL by string prepending when not absolute, and
used otherwise verbatim (no percent-decoding) — `getAllOrganizationPages`
terminates (with any fuel beyond the page count) exactly at the page whose
next link is empty and returns the concatenation of all pages' records in
traversal order. -/
theorem pagination_concatenates_pages (fetch : Str → Except Str Page)
    (base u : Str) (ps : List Page) (hchain : PageChain fetch base u ps)
    (fuel : Nat) (hfuel : ps.length + 1 ≤ fuel) :
    getAllOrganizationPages fuel fetch base u =
      some (.ok (pagesOrganizations ps)) := by
  induction hchain generalizing fuel with
  | @last u p hu hf hn =>
    match fuel, hfuel with
    | f + 1, hfuel =>
      have hf1 : 1 ≤ f := by simpa using hfuel
      match f, hf1 with
      | g + 1, _ =>
        unfold getAllOrganizationPages
        rw [if_neg hu, hf]
        simp [getAllOrganizationPages, hn, pagesOrganizations]
  | @cons u p ps hu hf hn hch ih =>
    match fuel, hfuel with
    | f + 1, hfuel =>
      have hrec := ih f (by simpa using hfuel)
      unfold getAllOrganizationPages
      rw [if_neg hu, hf]
      simp only [hn, ne_eq, not_false_iff, if_true, hrec, pagesOrganizations,
        List.flatMap_cons]

theorem pagination_concatenates_pages_witness :
    getAllOrganizationPages 3 witnessFetch witnessBase (witnessBase ++ str "/orgs") =
      some (.ok [⟨str "org-id-1", str "Organization 1", str "org-slug-1"⟩,
        ⟨str "org-id-2", str "Organization 2", str "org-slug-2"⟩]) := by
  have hchain : PageChain witnessFetch witnessBase (witnessBase ++ str "/orgs")
      [witnessPage1, witnessPage2] := by
    refine PageChain.cons (by decide) rfl (by decide) ?_
    exact PageChain.last (by decide) rfl rfl
  exact pagination_concatenates_pages witnessFetch witnessBase _ _ hchain 3
    (by decide)

/-- C4 counterexample: the source never percent-decodes next links. On a
two-page sequence whose next link is percent-escaped, the claimed behavior
(decode before use, then return all pages' records) yields both
organizations, but `getAllOrganizationPages` requests the undecoded URL and
fails, returning an error instead of the concatenation. -/
theorem pagination_no_percent_decoding_cex :
    percentDecode (str "/orgs?a=%2F") = str "/orgs?a=/" ∧
    getAllOrganizationPagesSpec 3 escFetch witnessBase (witnessBase ++ str "/orgs") =
      some (.ok [⟨str "org-id-1", str "Organization 1", str "org-slug-1"⟩,
        ⟨str "org-id-2", str "Organization 2", str "org-slug-2"⟩]) ∧
    getAllOrganizationPages 3 escFetch witnessBase (witnessBase ++ str "/orgs") =
      some (.error (str "unexpected status code: 404")) := by
  refine ⟨by decide, rfl, rfl⟩

/-- C2: with `--org` supplied, the invocation resolves the flag against the
cached-or-fetched organization list by exact id/name/slug equality: no match
is fatal (error outcome, nonzero exit, wrapped tool never executed); a match
runs the wrapped tool with the first matching organization's id, and the
outcome does not depend on the git or default-org environment at all (those
steps are skipped). -/
theorem explicit_org_fatal_or_first_match (flags : Flags) (args : List Str)
    (env : Env) (now : Nat) (s : CacheState) (cfg0 cfg : Config)
    (orgs : List Organization)
    (hcfg : env.configLoad = .ok cfg0)
    (httl : applyTTLFlag flags.cacheTTL
      (if flags.verbose then { cfg0 with verbose := true } else cfg0) = .ok cfg)
    (horg : flags.org ≠ [])
    (horgs : (getOrganizationsM env now cfg
      (if flags.resetCache then emptyCache else s)).1 = .ok orgs) :
    (findMatch orgs flags.org = none →
      (run flags args env now s).1 =
        .error (str "organization not found: " ++ flags.org) ∧
      nonzeroExit (run flags args env now s).1 = true ∧
      isExecOutcome (run flags args env now s).1 = false) ∧
    (∀ oid, findMatch orgs flags.org = some oid →
      (run flags args env now s).1 = executeTool oid args) := by
  rcases hgv : getOrganizationsM env now cfg
      (if flags.resetCache then emptyCache else s) with ⟨r1, s2, tk⟩
  rw [hgv] at horgs
  dsimp only at horgs
  subst horgs
  have hrun : run flags args env now s =
      (match findMatch orgs flags.org with
       | some oid => (executeTool oid args, s2, tk)
       | none => (.error (str "organization not found: " ++ flags.org), s2, tk)) := by
    unfold run
    rw [hcfg]
    dsimp only
    rw [httl]
    dsimp only
    rw [if_pos horg, hgv]
  constructor
  · intro hnone
    rw [hrun, hnone]
    exact ⟨rfl, rfl, rfl⟩
  · intro oid hsome
    rw [hrun, hsome]

/-- C2 witness: on a fresh cache with one organization, `--org=org-1`
resolves to its id (a slug match) and `--org=nope` is fatal. -/
theorem explicit_org_witness :
    (run wFlagsOrg [str "test"] wEnvOk 50 freshState).1 =
      executeTool (str "org-id-1") [str "test"] ∧
    (run wFlagsOrgMiss [str "test"] wEnvOk 50 freshState).1 =
      .error (str "organization not found: " ++ str "nope") := by
  constructor
  · exact (explicit_org_fatal_or_first_match wFlagsOrg [str "test"] wEnvOk 50
      freshState wCfg wCfg [wOrg] rfl rfl (by decide) rfl).2 (str "org-id-1")
      (by decide)
  · exact ((explicit_org_fatal_or_first_match wFlagsOrgMiss [str "test"] wEnvOk 50
      freshState wCfg wCfg [wOrg] rfl rfl (by decide) rfl).1 (by decide)).1

/-- C3 counterexample: on an invocation whose needed data is entirely fresh
in the cache (fresh organization list, fresh targets, and a cached URL-index
hit), `run` still constructs the API client before the git-URL step — so the
token is acquired (third result component `true`) and, with no token
available, the cache-only resolution fails rather than completing. -/
theorem token_eager_acquisition_cex :
    isExpired 100 86400 c3State = false ∧
    isTargetsCacheExpired 100 (str "o1") 86400 c3State = false ∧
    getTargetsByURL c3State (str "https://github.com/acme/widgets") ≠ [] ∧
    run c3Flags [str "test"] wEnvNoTok 100 c3State =
      (.error (str "failed to create Snyk client: no token"), c3State, true) := by
  refine ⟨rfl, rfl, by decide, rfl⟩

/-- C3 amended: the `--org` and `--list-orgs` paths are truly cache-only —
when the organization list is fresh and nonempty, `run` finishes those steps
without constructing a `SnykClient` (no token acquisition, whatever the
token environment holds) and without touching the cache; but any invocation
that proceeds past them to git-URL resolution constructs the client, and
thus acquires a token, before consulting the cache (see the
counterexample). -/
theorem token_not_acquired_fresh_org_paths (flags : Flags) (args : List Str)
    (env : Env) (now : Nat) (s : CacheState) (cfg0 cfg : Config)
    (hcfg : env.configLoad = .ok cfg0)
    (httl : applyTTLFlag flags.cacheTTL
      (if flags.verbose then { cfg0 with verbose := true } else cfg0) = .ok cfg)
    (hbranch : flags.org ≠ [] ∨ (flags.org = [] ∧ flags.listOrgs = true))
    (hreset : flags.resetCache = false)
    (hfresh : isExpired now cfg.cacheTTL s = false)
    (hne : getOrganizationsCache s ≠ []) :
    (run flags args env now s).2.2 = false ∧
    (run flags args env now s).2.1 = s := by
  have hg : getOrganizationsM env now cfg s =
      (.ok (getOrganizationsCache s), s, false) := by
    unfold getOrganizationsM
    rw [if_pos ⟨hfresh, hne⟩]
  have hs1 : (if flags.resetCache then emptyCache else s) = s := by
    rw [hreset, if_neg Bool.false_ne_true]
  rcases hbranch with horg | ⟨horg, hlist⟩
  · have hrun : run flags args env now s =
        (match findMatch (getOrganizationsCache s) flags.org with
         | some oid => (executeTool oid args, s, false)
         | none =>
           (.error (str "organization not found: " ++ flags.org), s, false)) := by
      unfold run
      rw [hcfg]
      dsimp only
      rw [httl]
      dsimp only
      rw [hs1, if_pos horg, hg]
    rw [hrun]
    cases findMatch (getOrganizationsCache s) flags.org with
    | none => exact ⟨rfl, rfl⟩
    | some oid => exact ⟨rfl, rfl⟩
  · have hrun : run flags args env now s =
        (.listOrgsOut (getOrganizationsCache s), s, false) := by
      unfold run
      rw [hcfg]
      dsimp only
      rw [httl]
      dsimp only
      rw [hs1, if_neg (by simp [horg]), if_pos hlist, hg]
    rw [hrun]
    exact ⟨rfl, rfl⟩

/-- C3 witness: a `--list-orgs` invocation on a fresh cache acquires no
token even though the environment has none to give. -/
theorem token_not_acquired_witness :
    (run wFlagsList [str "test"] wEnvNoTok 50 freshState).2.2 = false ∧
    (run wFlagsList [str "test"] wEnvNoTok 50 freshState).2.1 = freshState :=
  token_not_acquired_fresh_org_paths wFlagsList [str "test"] wEnvNoTok 50
    freshState wCfg wCfg rfl rfl (Or.inr ⟨rfl, rfl⟩) rfl rfl (by decide)

/-- C1: with no `--org` and no `--list-orgs`, when a candidate git URL is
available (explicit flag or successful detection) but `findOrgByGitURL`
misses (no cached or fetched target matches), `run` falls through to the
configured default organization, resolved by exact id/name/slug match; with
no default configured, or a default that matches nothing, the wrapped tool
runs without an organization (help when no arguments remain) — the URL miss
itself is never fatal. -/
theorem url_miss_falls_through (flags : Flags) (args : List Str) (env : Env)
    (now : Nat) (s : CacheState) (cfg0 cfg : Config) (tok cand e : Str)
    (orgs : List Organization)
    (hcfg : env.configLoad = .ok cfg0)
    (httl : applyTTLFlag flags.cacheTTL
      (if flags.verbose then { cfg0 with verbose := true } else cfg0) = .ok cfg)
    (horg : flags.org = []) (hlist : flags.listOrgs = false)
    (htok : env.tokenResult = .ok tok)
    (hcand : (flags.gitURL = cand ∧ cand ≠ []) ∨
      (flags.gitURL = [] ∧ flags.autoDetectGit = true ∧
        env.gitRemote = .ok cand ∧ cand ≠ []))
    (hmiss : (findOrgByGitURL env now cfg cand
      (if flags.resetCache then emptyCache else s)).1 = .error e)
    (hdef : cfg.defaultOrg ≠ [] → (getOrganizationsM env now cfg
      (findOrgByGitURL env now cfg cand
        (if flags.resetCache then emptyCache else s)).2.1).1 = .ok orgs) :
    (run flags args env now s).1 =
      (match (if cfg.defaultOrg = [] then none
              else findMatch orgs cfg.defaultOrg) with
       | some oid => executeTool oid args
       | none => if args = [] then RunOutcome.help else .execNone args) ∧
    (args ≠ [] → nonzeroExit (run flags args env now s).1 = false) := by
  rcases hfv : findOrgByGitURL env now cfg cand
      (if flags.resetCache then emptyCache else s) with ⟨fr, s2, ftk⟩
  rw [hfv] at hmiss hdef
  dsimp only at hmiss hdef
  subst hmiss
  have hstep : run flags args env now s =
      gitDefaultSteps env now cfg flags args
        (if flags.resetCache then emptyCache else s) := by
    unfold run
    rw [hcfg]
    dsimp only
    rw [httl]
    dsimp only
    rw [if_neg (by simp [horg]), if_neg (by simp [hlist]), htok]
  have hgit : gitDefaultSteps env now cfg flags args
      (if flags.resetCache then emptyCache else s) =
      defaultStep env now cfg args s2 := by
    rcases hcand with ⟨hgu, hcne⟩ | ⟨hgu, hauto, hremote, hcne⟩
    · unfold gitDefaultSteps
      rw [if_pos (Or.inl (hgu ▸ hcne)), if_neg (by simp [hgu, hcne]),
        if_pos (hgu ▸ hcne), hgu, hfv]
    · unfold gitDefaultSteps
      rw [if_pos (Or.inr (by simp [hauto])), if_pos ⟨hgu, by simp [hauto]⟩,
        hremote]
      dsimp only
      rw [if_pos hcne, hfv]
  rw [hstep, hgit]
  by_cases hd : cfg.defaultOrg = []
  · have hds : defaultStep env now cfg args s2 =
        (if args = [] then (RunOutcome.help, s2, true)
         else (executeTool [] args, s2, true)) := by
      unfold defaultStep
      rw [if_neg (by simp [hd])]
    rw [hds, if_pos hd]
    by_cases hargs : args = []
    · rw [if_pos hargs, if_pos hargs]
      exact ⟨rfl, fun hne => absurd hargs hne⟩
    · rw [if_neg hargs, if_neg hargs]
      refine ⟨?_, fun _ => ?_⟩
      · show executeTool [] args = _
        unfold executeTool
        rw [if_neg hargs]
        rfl
      · show nonzeroExit (executeTool [] args) = false
        unfold executeTool
        rw [if_neg hargs]
        rfl
  · rcases hgv2 : getOrganizationsM env now cfg s2 with ⟨gr, s3, gtk⟩
    have hgr := hdef hd
    rw [hgv2] at hgr
    dsimp only at hgr
    subst hgr
    have hds : defaultStep env now cfg args s2 =
        (match findMatch orgs cfg.defaultOrg with
         | some oid => (executeTool oid args, s3, true)
         | none =>
           if args = [] then (RunOutcome.help, s3, true)
           else (executeTool [] args, s3, true)) := by
      unfold defaultStep
      rw [if_pos hd, hgv2]
    rw [hds, if_neg hd]
    cases hfm : findMatch orgs cfg.defaultOrg with
    | some oid =>
      refine ⟨rfl, fun hargs => ?_⟩
      by_cases ho : oid = [] <;> simp [executeTool, nonzeroExit, hargs, ho]
    | none =>
      by_cases hargs : args = []
      · rw [if_pos hargs, if_pos hargs]
        exact ⟨rfl, fun hne => absurd hargs hne⟩
      · rw [if_neg hargs, if_neg hargs]
        refine ⟨?_, fun _ => ?_⟩
        · show executeTool [] args = _
          unfold executeTool
          rw [if_neg hargs]
          rfl
        · show nonzeroExit (executeTool [] args) = false
          unfold executeTool
          rw [if_neg hargs]
          rfl

/-- C1 witness: with a candidate URL that matches no cached or fetched
target and no default organization configured, the wrapped tool runs without
an organization and the miss is not fatal. -/
theorem url_miss_falls_through_witness :
    (run missFlags [str "test"] wEnvOk 50 missState).1 =
      RunOutcome.execNone [str "test"] ∧
    nonzeroExit (run missFlags [str "test"] wEnvOk 50 missState).1 = false := by
  have h := url_miss_falls_through missFlags [str "test"] wEnvOk 50 missState
    wCfg wCfg (str "tok") (str "https://github.com/acme/widgets")
    (str "no organization found with a target matching URL") [] rfl rfl rfl rfl
    rfl (Or.inl ⟨rfl, by decide⟩) rfl (fun hc => absurd rfl hc)
  exact ⟨h.1, h.2 (by decide)⟩

example : str "ab" = ['a', 'b'] := rfl

example : startsWith (str "https://x") (str "https://") = true := rfl

example : startsWith (str "https://" ++ ['x']) (str "http://") = false := rfl

example : splitOnChar ':' (str "git@h:o/r") = [str "git@h", str "o/r"] := rfl

example : sqlLower (str "Http://A") = str "http://a" := by decide

example : normalizeRepoURL (str "git@github.com:owner/repo.git") =
    .ok (str "https://github.com/owner/repo") := rfl

example : normalizeRepoURL (str "gitlab.com/owner/repo") =
    .error (str "invalid repository URL format: gitlab.com/owner/repo") := rfl

example : normalizeRepoURL (str "https://a/b.git/") = .ok (str "https://a/b.git") := rfl

end SnykAutoOrg
